import Mathlib

/-!
# Verification of the CH552G mini-keyboard WS2812 LED driver

Shallow embedding of `src/led_colors.h` and `src/ws2812.c`.

* 8-bit C values (`uint8_t`) are modelled as `Nat` together with `≤ 255`
  hypotheses where a claim quantifies over the C type's domain; in the C
  arithmetic of these files (`uint8_t` operands promoted to `int`) no
  intermediate result can overflow, so plain `Nat` arithmetic is exact.
* The global byte array `WS2812_buffer` (length `3 * WS2812_COUNT`) and the
  static pointer `buffer_ptr` become an explicit state record; array reads
  use `List.getD` with default `0` exactly where the C code indexes the array.
* The physical side effects of a transmission (bit symbols on the data pin,
  interrupt masking, the latch delay) are modelled as an event trace.
-/

namespace CH552

/-! ## `src/led_colors.h` -/

/-- `RGB_Color` struct of `led_colors.h`. -/
structure RGB_Color where
  r : Nat
  g : Nat
  b : Nat
deriving DecidableEq, Repr

/-- `COLOR_PALETTE` table of `led_colors.h` (8 entries, indices 0–7). -/
def COLOR_PALETTE : List RGB_Color :=
  [⟨0, 0, 0⟩,       -- 0: COLOR_OFF
   ⟨100, 0, 0⟩,     -- 1: COLOR_RED
   ⟨0, 100, 0⟩,     -- 2: COLOR_GREEN
   ⟨0, 0, 100⟩,     -- 3: COLOR_BLUE
   ⟨100, 80, 0⟩,    -- 4: COLOR_YELLOW
   ⟨0, 100, 100⟩,   -- 5: COLOR_CYAN
   ⟨100, 0, 100⟩,   -- 6: COLOR_MAGENTA
   ⟨100, 100, 100⟩] -- 7: COLOR_WHITE

/-- `applyBrightness` of `led_colors.h`: each channel becomes
`channel * brightness / 255` with C integer (truncating) division.
The three in-out pointers become a returned triple. -/
def applyBrightness (r g b brightness : Nat) : Nat × Nat × Nat :=
  (r * brightness / 255, g * brightness / 255, b * brightness / 255)

/-- `getColor` of `led_colors.h`: indices above 7 fall back to palette
entry 0, then the palette entry is scaled by `applyBrightness`. -/
def getColor (color_index brightness : Nat) : Nat × Nat × Nat :=
  let idx := if 7 < color_index then 0 else color_index
  let base := COLOR_PALETTE.getD idx ⟨0, 0, 0⟩
  applyBrightness base.r base.g base.b brightness

/-! ## `src/ws2812.c` -/

/-- `WS2812_COUNT` from `ws2812.h`. -/
def WS2812_COUNT : Nat := 3

/-- Observable events of the driver: a bit symbol put on the data line
(`bit true` = long HIGH pulse, `bit false` = short HIGH pulse),
interrupt masking/unmasking (`noInterrupts`/`interrupts`), and the
latch delay (`delayMicroseconds`). -/
inductive Ev where
  | bit (b : Bool)
  | intOff
  | intOn
  | latch (us : Nat)
deriving DecidableEq, Repr

/-- One `rlc a` step of the assembly loop in `WS2812_sendByte`: the
accumulator's bit 7 moves into the carry (this is the emitted bit) and the
old carry is rotated into bit 0. Returns (new carry, new accumulator). -/
def rlcStep (acc : Nat) (c : Bool) : Bool × Nat :=
  (decide (128 ≤ acc % 256), (2 * (acc % 256) + (if c then 1 else 0)) % 256)

/-- The `djnz`-controlled loop body of `WS2812_sendByte`, emitting one bit
symbol per iteration (the carry produced by `rlc`). -/
def sendLoop : Nat → Bool → Nat → List Bool
  | _, _, 0 => []
  | acc, c, n + 1 =>
    let st := rlcStep acc c
    st.1 :: sendLoop st.2 st.1 n

/-- `WS2812_sendByte` of `ws2812.c`: 8 iterations of the `rlc`/pin-toggle
loop. `carryIn` is whatever the 8051 carry flag holds on entry (the
assembly never initializes it before the first `rlc`). -/
def WS2812_sendByte (data : Nat) (carryIn : Bool) : List Bool :=
  sendLoop (data % 256) carryIn 8

/-- Driver state: the global array `WS2812_buffer` (3 bytes per LED, GRB
order) and the static pointer `buffer_ptr`, kept as an offset into the
buffer. -/
structure WSState where
  buffer : List Nat
  bufPtr : Nat
deriving DecidableEq, Repr

/-- C globals are zero-initialized: the state at program start. -/
def startupState : WSState :=
  { buffer := List.replicate (3 * WS2812_COUNT) 0, bufPtr := 0 }

/-- The byte sequence `WS2812_update` reads out of the buffer:
`WS2812_buffer[i]` for `i = 0 .. 3*WS2812_COUNT - 1`. -/
def frameBytes (s : WSState) : List Nat :=
  (List.range (3 * WS2812_COUNT)).map (fun i => s.buffer.getD i 0)

/-- The bit symbols a full pass of the `WS2812_update` loop emits: each
buffer byte in order through `WS2812_sendByte`, with no gap in between. -/
def frameBits (s : WSState) : List Bool :=
  (frameBytes s).flatMap (fun byte => WS2812_sendByte byte false)

/-- The byte sequence `WS2812_update` emits for pixel `i`: the three buffer
bytes at offsets `3*i`, `3*i+1`, `3*i+2`. -/
def pixelBytes (s : WSState) (i : Nat) : List Nat :=
  ((frameBytes s).drop (3 * i)).take 3

/-- `WS2812_update` of `ws2812.c`: set `buffer_ptr` to the buffer start,
disable interrupts, send every buffer byte via `WS2812_sendByte` (advancing
`buffer_ptr`), re-enable interrupts, then the 300 µs latch delay.
Returns the new state and the emitted event trace. -/
def WS2812_update (s : WSState) : WSState × List Ev :=
  ({ s with bufPtr := 3 * WS2812_COUNT },
    Ev.intOff :: ((frameBits s).map Ev.bit ++ [Ev.intOn, Ev.latch 300]))

/-- The zero-filling loop shared by `WS2812_init` and `WS2812_clear`:
`WS2812_buffer[i] = 0` for `i = 0 .. 3*WS2812_COUNT - 1`. -/
def zeroFill (l : List Nat) : List Nat :=
  (List.range (3 * WS2812_COUNT)).foldl (fun acc i => acc.set i 0) l

/-- `WS2812_init` of `ws2812.c`: configures the pin (not modelled beyond the
state) and zero-fills the buffer. -/
def WS2812_init (s : WSState) : WSState :=
  { s with buffer := zeroFill s.buffer }

/-- `WS2812_setPixel` of `ws2812.c`: out-of-range pixel indices return
without touching the state; otherwise the three bytes at offset `3*pixel`
are written in G, R, B order. -/
def WS2812_setPixel (s : WSState) (pixel r g b : Nat) : WSState :=
  if WS2812_COUNT ≤ pixel then s
  else
    { s with
      buffer := ((s.buffer.set (3 * pixel) g).set (3 * pixel + 1) r).set (3 * pixel + 2) b }

/-- `WS2812_clear` of `ws2812.c`: zero-fills the buffer, then calls
`WS2812_update`. -/
def WS2812_clear (s : WSState) : WSState × List Ev :=
  WS2812_update { s with buffer := zeroFill s.buffer }

/-- `WS2812_show` of `ws2812.c`: alias for `WS2812_update`. -/
def WS2812_show (s : WSState) : WSState × List Ev :=
  WS2812_update s

/-- Trace check: every `bit` event occurs while interrupts are masked.
`en` is the interrupt-enable status running through the trace
(`true` = interrupts enabled). -/
def bitsOnlyWhileMasked : Bool → List Ev → Bool
  | _, [] => true
  | en, Ev.bit _ :: tl => !en && bitsOnlyWhileMasked en tl
  | _, Ev.intOff :: tl => bitsOnlyWhileMasked false tl
  | _, Ev.intOn :: tl => bitsOnlyWhileMasked true tl
  | en, Ev.latch _ :: tl => bitsOnlyWhileMasked en tl

/-- The interrupt-enable status after a trace has run. -/
def intStatusAfter : Bool → List Ev → Bool
  | en, [] => en
  | _, Ev.intOff :: tl => intStatusAfter false tl
  | _, Ev.intOn :: tl => intStatusAfter true tl
  | en, Ev.bit _ :: tl => intStatusAfter en tl
  | en, Ev.latch _ :: tl => intStatusAfter en tl

/-! ## Helper lemmas -/

theorem getD_set_self (l : List Nat) (i a : Nat) (h : i < l.length) :
    (l.set i a).getD i 0 = a := by
  simp [List.getD_eq_getElem?_getD, List.getElem?_set, h]

theorem getD_set_of_ne (l : List Nat) (i j a : Nat) (h : i ≠ j) :
    (l.set i a).getD j 0 = l.getD j 0 := by
  simp [List.getD_eq_getElem?_getD, List.getElem?_set, h]

theorem foldl_set_zero_getD (n : Nat) (l : List Nat) (j : Nat) (hj : j < n) :
    ((List.range n).foldl (fun acc i => acc.set i 0) l).getD j 0 = 0 := by
  induction n generalizing j with
  | zero => omega
  | succ m ih =>
    rw [List.range_succ, List.foldl_append]
    simp only [List.foldl_cons, List.foldl_nil]
    by_cases hjm : j = m
    · subst hjm
      by_cases hl : j < ((List.range j).foldl (fun acc i => acc.set i 0) l).length
      · exact getD_set_self _ _ _ hl
      · apply List.getD_eq_default
        rw [List.length_set]
        omega
    · rw [getD_set_of_ne _ _ _ _ (fun h => hjm h.symm)]
      exact ih j (by omega)

/-! ## Claim theorems -/

/-- C1: for every color index in [0,7] and brightness in [0,255], `getColor`
produces each output channel as `floor(paletteChannel * brightness / 255)`
with truncating integer division. -/
theorem getColor_scaling (idx brightness : Nat) (hidx : idx ≤ 7)
    (hb : brightness ≤ 255) :
    getColor idx brightness =
      ((COLOR_PALETTE.getD idx ⟨0, 0, 0⟩).r * brightness / 255,
       (COLOR_PALETTE.getD idx ⟨0, 0, 0⟩).g * brightness / 255,
       (COLOR_PALETTE.getD idx ⟨0, 0, 0⟩).b * brightness / 255) := by
  interval_cases idx <;> rfl

/-- Witness for C1, checking the claim's two examples: palette red (100,0,0)
at brightness 128 yields (50,0,0), and brightness 1 against palette value 100
yields 0. -/
theorem getColor_scaling_witness :
    getColor 1 128 = (50, 0, 0) ∧ getColor 1 1 = (0, 0, 0) :=
  ⟨(getColor_scaling 1 128 (by decide) (by decide)).trans (by decide),
   (getColor_scaling 1 1 (by decide) (by decide)).trans (by decide)⟩

/-- C5: for every color index outside [0,7] (in the uint8 domain, 8–255) and
every brightness, `getColor` behaves exactly as if called with index 0 and
returns (0,0,0); the index is coerced, no error is raised. -/
theorem getColor_oob_coerced (idx brightness : Nat) (h7 : 7 < idx)
    (h255 : idx ≤ 255) :
    getColor idx brightness = getColor 0 brightness ∧
    getColor idx brightness = (0, 0, 0) := by
  constructor <;> simp [getColor, applyBrightness, h7, COLOR_PALETTE]

/-- Witness for C5 at the spec's example index 9. -/
theorem getColor_oob_coerced_witness :
    getColor 9 200 = getColor 0 200 ∧ getColor 9 200 = (0, 0, 0) :=
  getColor_oob_coerced 9 200 (by decide) (by decide)

/-- C4: `WS2812_setPixel` with a pixel index ≥ `WS2812_COUNT` (in the uint8
domain) returns with the whole state unchanged — no byte of the buffer is
mutated and no error is surfaced. -/
theorem setPixel_oob_noop (s : WSState) (pixel r g b : Nat)
    (hlo : WS2812_COUNT ≤ pixel) (hhi : pixel ≤ 255) :
    WS2812_setPixel s pixel r g b = s := by
  simp [WS2812_setPixel, hlo]

/-- Witness for C4: pixel index 3 on a nonzero buffer. -/
theorem setPixel_oob_noop_witness :
    WS2812_setPixel ⟨[1, 2, 3, 4, 5, 6, 7, 8, 9], 0⟩ 3 10 20 30 =
      ⟨[1, 2, 3, 4, 5, 6, 7, 8, 9], 0⟩ :=
  setPixel_oob_noop _ 3 10 20 30 (by decide) (by decide)

set_option maxRecDepth 4096 in
/-- C6: for every 8-bit byte value and any incoming carry flag,
`WS2812_sendByte` emits exactly 8 bit symbols, one per bit of the byte, in
most-significant-bit-first order. -/
theorem sendByte_msb_first (data : Nat) (hd : data ≤ 255) (carryIn : Bool) :
    WS2812_sendByte data carryIn =
      (List.range 8).map (fun i => data.testBit (7 - i)) ∧
    (WS2812_sendByte data carryIn).length = 8 := by
  have key : ∀ d : Fin 256, ∀ c : Bool,
      WS2812_sendByte d.val c =
        (List.range 8).map (fun i => Nat.testBit d.val (7 - i)) := by decide
  have h := key ⟨data, by omega⟩ carryIn
  exact ⟨h, by rw [h]; simp⟩

/-- Witness for C6 at data byte 100 (bits 01100100, MSB first). -/
theorem sendByte_msb_first_witness :
    WS2812_sendByte 100 true =
      (List.range 8).map (fun i => Nat.testBit 100 (7 - i)) ∧
    (WS2812_sendByte 100 true).length = 8 :=
  sendByte_msb_first 100 (by decide) true

/-- C10: for every valid pixel index `i` and every r, g, b,
`WS2812_setPixel` writes exactly the bytes at offsets `3*i`, `3*i+1`,
`3*i+2` (to g, r, b respectively); every other buffer byte, and the buffer
length, is unchanged. -/
theorem setPixel_modifies_only_own_bytes (s : WSState) (i r g b : Nat)
    (hi : i < WS2812_COUNT) (hlen : s.buffer.length = 3 * WS2812_COUNT) :
    (WS2812_setPixel s i r g b).buffer.getD (3 * i) 0 = g ∧
    (WS2812_setPixel s i r g b).buffer.getD (3 * i + 1) 0 = r ∧
    (WS2812_setPixel s i r g b).buffer.getD (3 * i + 2) 0 = b ∧
    (∀ j, j ≠ 3 * i → j ≠ 3 * i + 1 → j ≠ 3 * i + 2 →
      (WS2812_setPixel s i r g b).buffer.getD j 0 = s.buffer.getD j 0) ∧
    (WS2812_setPixel s i r g b).buffer.length = s.buffer.length := by
  have hi3 : i < 3 := by simpa [WS2812_COUNT] using hi
  have hlen9 : s.buffer.length = 9 := by simpa [WS2812_COUNT] using hlen
  have hip : ¬ (WS2812_COUNT ≤ i) := by simp [WS2812_COUNT]; omega
  simp only [WS2812_setPixel, if_neg hip]
  refine ⟨?_, ?_, ?_, ?_, ?_⟩
  · rw [getD_set_of_ne _ _ _ _ (by omega), getD_set_of_ne _ _ _ _ (by omega),
      getD_set_self _ _ _ (by omega)]
  · rw [getD_set_of_ne _ _ _ _ (by omega),
      getD_set_self _ _ _ (by rw [List.length_set]; omega)]
  · rw [getD_set_self _ _ _ (by rw [List.length_set, List.length_set]; omega)]
  · intro j h1 h2 h3
    rw [getD_set_of_ne _ _ _ _ (by omega), getD_set_of_ne _ _ _ _ (by omega),
      getD_set_of_ne _ _ _ _ (by omega)]
  · simp [List.length_set]

/-- Witness for C10 at pixel 1 of a concrete buffer. -/
theorem setPixel_modifies_only_own_bytes_witness :
    (WS2812_setPixel ⟨[1, 2, 3, 4, 5, 6, 7, 8, 9], 0⟩ 1 10 20 30).buffer.getD 3 0 = 20 ∧
    (WS2812_setPixel ⟨[1, 2, 3, 4, 5, 6, 7, 8, 9], 0⟩ 1 10 20 30).buffer.getD 4 0 = 10 ∧
    (WS2812_setPixel ⟨[1, 2, 3, 4, 5, 6, 7, 8, 9], 0⟩ 1 10 20 30).buffer.getD 5 0 = 30 ∧
    (∀ j, j ≠ 3 → j ≠ 4 → j ≠ 5 →
      (WS2812_setPixel ⟨[1, 2, 3, 4, 5, 6, 7, 8, 9], 0⟩ 1 10 20 30).buffer.getD j 0 =
        (WSState.mk [1, 2, 3, 4, 5, 6, 7, 8, 9] 0).buffer.getD j 0) ∧
    (WS2812_setPixel ⟨[1, 2, 3, 4, 5, 6, 7, 8, 9], 0⟩ 1 10 20 30).buffer.length =
      (WSState.mk [1, 2, 3, 4, 5, 6, 7, 8, 9] 0).buffer.length :=
  setPixel_modifies_only_own_bytes ⟨[1, 2, 3, 4, 5, 6, 7, 8, 9], 0⟩ 1 10 20 30
    (by decide) (by decide)

/-- C2: after `WS2812_setPixel s i r g b` on a valid index, the byte
sequence transmitted for pixel `i` (before bit-encoding) is green, then
red, then blue — not RGB order. -/
theorem setPixel_grb_wire_order (s : WSState) (i r g b : Nat)
    (hi : i < WS2812_COUNT) (hlen : s.buffer.length = 3 * WS2812_COUNT) :
    pixelBytes (WS2812_setPixel s i r g b) i = [g, r, b] := by
  have hi3 : i < 3 := by simpa [WS2812_COUNT] using hi
  have h := setPixel_modifies_only_own_bytes s i r g b hi hlen
  have hrange : List.range (3 * WS2812_COUNT) = [0, 1, 2, 3, 4, 5, 6, 7, 8] := by decide
  interval_cases i <;>
    simp only [pixelBytes, frameBytes, hrange, List.map_cons, List.map_nil,
      List.drop_succ_cons, List.drop_zero, List.take_succ_cons, List.take_zero] <;>
    exact by
      obtain ⟨h1, h2, h3, _, _⟩ := h
      simp_all

/-- Witness for C2, matching the spec's example: a pixel written as
(r=0x00, g=0xFF, b=0x00) is emitted as the byte sequence [0xFF, 0x00, 0x00]. -/
theorem setPixel_grb_wire_order_witness :
    pixelBytes (WS2812_setPixel startupState 0 0x00 0xFF 0x00) 0 = [0xFF, 0x00, 0x00] :=
  setPixel_grb_wire_order startupState 0 0x00 0xFF 0x00 (by decide) (by decide)

/-- C7: the end-to-end sequence `init()`, `setPixel(1, 100, 0, 0)`,
`update()` reads out exactly the byte sequence [0,0,0, 0,100,0, 0,0,0]
(pixel 1 in G,R,B order) and emits it as 72 MSB-first bit symbols —
32 zero bits, the bits 01100100 of the byte 100, then 32 zero bits —
bracketed by interrupt masking and followed by the 300 µs latch delay. -/
theorem end_to_end_scenario :
    frameBytes (WS2812_setPixel (WS2812_init startupState) 1 100 0 0) =
      [0, 0, 0, 0, 100, 0, 0, 0, 0] ∧
    (WS2812_update (WS2812_setPixel (WS2812_init startupState) 1 100 0 0)).2 =
      Ev.intOff ::
        ((List.replicate 32 false ++
            [false, true, true, false, false, true, false, false] ++
            List.replicate 32 false).map Ev.bit ++
          [Ev.intOn, Ev.latch 300]) := by
  decide

/-- C8: transmission is a pure function of the frame buffer and leaves it
unmodified: `WS2812_update` does not change the buffer, and a second call
on the resulting state emits the identical event trace (hence the identical
bit sequence). -/
theorem update_buffer_unchanged_and_repeatable (s : WSState) :
    (WS2812_update s).1.buffer = s.buffer ∧
    (WS2812_update ((WS2812_update s).1)).2 = (WS2812_update s).2 :=
  ⟨rfl, rfl⟩

theorem bitsOnlyWhileMasked_append_bits (l : List Bool) (tl : List Ev) :
    bitsOnlyWhileMasked false (l.map Ev.bit ++ tl) = bitsOnlyWhileMasked false tl := by
  induction l with
  | nil => rfl
  | cons hd t ih => simp [bitsOnlyWhileMasked, ih]

theorem intStatusAfter_append_bits (l : List Bool) (tl : List Ev) :
    intStatusAfter false (l.map Ev.bit ++ tl) = intStatusAfter false tl := by
  induction l with
  | nil => rfl
  | cons hd t ih => simp [intStatusAfter, ih]

theorem bitsOnlyWhileMasked_intOff_cons (en : Bool) (tl : List Ev) :
    bitsOnlyWhileMasked en (Ev.intOff :: tl) = bitsOnlyWhileMasked false tl := rfl

theorem intStatusAfter_intOff_cons (en : Bool) (tl : List Ev) :
    intStatusAfter en (Ev.intOff :: tl) = intStatusAfter false tl := rfl

/-- C9: in the trace of every `WS2812_update` call, interrupts are masked
before any bit symbol is emitted, every bit symbol is emitted while they
are masked, and they are restored (enabled again) by the end of the call. -/
theorem update_masks_interrupts (s : WSState) :
    bitsOnlyWhileMasked true (WS2812_update s).2 = true ∧
    intStatusAfter true (WS2812_update s).2 = true := by
  have htrace : (WS2812_update s).2 =
      Ev.intOff :: ((frameBits s).map Ev.bit ++ [Ev.intOn, Ev.latch 300]) := rfl
  rw [htrace]
  constructor
  · rw [bitsOnlyWhileMasked_intOff_cons, bitsOnlyWhileMasked_append_bits]
    rfl
  · rw [intStatusAfter_intOff_cons, intStatusAfter_append_bits]
    rfl

/-- C3 counterexample: `WS2812_clear` does transmit — on a concrete state
its event trace is nonempty and contains a full transmission's latch delay,
refuting "after clear() returns, no transmit operation has been performed". -/
theorem clear_does_transmit_counterexample :
    (WS2812_clear ⟨List.replicate 9 37, 0⟩).2 ≠ [] ∧
    Ev.latch 300 ∈ (WS2812_clear ⟨List.replicate 9 37, 0⟩).2 := by
  decide

/-- C3 (amended): `WS2812_clear` sets every channel of every pixel to 0 and
then itself transmits the cleared frame — zeroing first, then a full
`WS2812_update` emission (all-zero bits, bracketed by interrupt masking,
followed by the latch delay) — so no separate transmit call is needed. -/
theorem clear_zeroes_then_transmits (s : WSState) :
    frameBytes (WS2812_clear s).1 = List.replicate 9 0 ∧
    (WS2812_clear s).2 =
      Ev.intOff ::
        ((List.replicate 72 false).map Ev.bit ++ [Ev.intOn, Ev.latch 300]) := by
  have hz : frameBytes { s with buffer := zeroFill s.buffer } = List.replicate 9 0 := by
    rw [List.eq_replicate_iff]
    constructor
    · simp [frameBytes, WS2812_COUNT]
    · intro x hx
      simp only [frameBytes, List.mem_map, List.mem_range] at hx
      obtain ⟨j, hj, hfx⟩ := hx
      rw [← hfx]
      exact foldl_set_zero_getD _ _ _ (by simpa [WS2812_COUNT] using hj)
  constructor
  · exact hz
  · show Ev.intOff ::
        ((frameBits { s with buffer := zeroFill s.buffer }).map Ev.bit ++
          [Ev.intOn, Ev.latch 300]) = _
    rw [frameBits, hz]
    rfl

end CH552
